import Mathlib

/-!
# MCP Proxy Gateway Server — shallow embedding and verification

This file embeds the core logic of the MCP-Proxy-Gateway-Server repository
(TypeScript) in Lean 4 and proves/refutes the frozen specification claims.

Embedded components and their sources:
* `TARGETS` — `src/config/targets.ts` (the `TARGETS` object literal).
* `parseJsonRpc`, `postMcp` — the proxy server's `POST /mcp/:target` handler
  (express route with `zod` envelope validation and `axios` forwarding).
* `aggregateMethods`, `getMethodsHandler` — the proxy server's
  `GET /mcp/get_methods` handler (`Promise.allSettled` fan-out).
* `parseQuery`, `handleQuery` — `src/agent/agent.ts`.
* `specChunks` — the retrieval module's chunking (modelled from the spec,
  see its doc comment: the splitter implementation is a third-party library).

Conventions of the embedding:
* JavaScript strings are Lean `String`s; string algorithms are written by
  structural recursion over `String.data` (`List Char`) so that every
  definition is executable and kernel-reducible.
* JSON values are the inductive `Json` below.  A JS object is a list of
  key/value pairs in insertion order (JS objects preserve insertion order
  for string keys, and the embedded programs never create duplicate keys).
* Asynchronous I/O is made explicit: an HTTP exchange is a parameter of
  type `... → Except ...` supplied to the handler, so a handler's output is
  a pure function of the registry, the request, and the backends' behaviour.
  `Promise.allSettled` resolves positionally (its result array is in input
  order, independent of settlement timing), which the embedding reflects by
  mapping the per-target outcome function over the registry list.
-/

/-- JSON values.  JS objects are modelled as association lists in insertion
order; the number type is restricted to integers, which covers every number
the embedded programs produce or inspect. -/
inductive Json where
  | null : Json
  | bool : Bool → Json
  | num : Int → Json
  | str : String → Json
  | arr : List Json → Json
  | obj : List (String × Json) → Json

namespace Json

/-- JS property read `o[k]` on a JSON value: `some v` when the value is an
object with a field `k` (first occurrence), `none` otherwise (JS
`undefined`, as produced by optional chaining `o?.[k]` on non-objects). -/
def get? : Json → String → Option Json
  | .obj fields, k => fields.lookup k
  | _, _ => none

/-- The keys of a JSON object (empty for non-objects). -/
def keys : Json → List String
  | .obj fields => fields.map Prod.fst
  | _ => []

end Json

section Registry

/-!
## Target registry — `src/config/targets.ts`

```ts
export const TARGETS = {
  filesystem: process.env.MCP_FILESYSTEM_URL || 'http://localhost:7001',
  github:     process.env.MCP_GITHUB_URL     || 'http://localhost:7002',
  atlassian:  process.env.MCP_ATLASSIAN_URL  || 'http://localhost:7003',
  gdrive:     process.env.MCP_GDRIVE_URL     || 'http://localhost:7004',
  playwright: process.env.MCP_PLAYWRIGHT_URL || 'http://localhost:7005'
};
```

The environment is a parameter `env : String → Option String`
(`process.env` lookup; the embedded URLs are never the empty string, so
JS `||` coincides with `Option.getD`). -/

/-- The `TARGETS` object of `src/config/targets.ts`, as an association list
in literal (= JS iteration) order, parametrised by the process environment. -/
def TARGETS (env : String → Option String) : List (String × String) :=
  [ ("filesystem", (env "MCP_FILESYSTEM_URL").getD "http://localhost:7001")
  , ("github",     (env "MCP_GITHUB_URL").getD     "http://localhost:7002")
  , ("atlassian",  (env "MCP_ATLASSIAN_URL").getD  "http://localhost:7003")
  , ("gdrive",     (env "MCP_GDRIVE_URL").getD     "http://localhost:7004")
  , ("playwright", (env "MCP_PLAYWRIGHT_URL").getD "http://localhost:7005") ]

/-- Own-entry lookup on the registry object: `some url` exactly when
`target` is one of the five keys of the `TARGETS` literal.  (This is *not*
the whole of the JS property read `TARGETS[target]` — see `jsGetTarget`.) -/
def lookupTarget (env : String → Option String) (target : String) : Option String :=
  (TARGETS env).lookup target

/-- What the property read `TARGETS[target]` can evaluate to when it is not
`undefined`: either a registered base URL (an own entry of the literal) or
a member inherited from `Object.prototype` — a function such as
`constructor` or `toString`, or `Object.prototype` itself for `__proto__`.
Every inherited member is truthy, so it passes the route's
`if (!downstream)` guard despite not being a URL. -/
inductive JsProp where
  | url : String → JsProp
  | protoMember : JsProp

/-- The property names every plain object literal inherits from
`Object.prototype` (data and accessor properties reachable by a `[name]`
read; none of them is `undefined`). -/
def objectPrototypeProps : List String :=
  [ "constructor", "hasOwnProperty", "isPrototypeOf", "propertyIsEnumerable"
  , "toLocaleString", "toString", "valueOf", "__proto__"
  , "__defineGetter__", "__defineSetter__", "__lookupGetter__", "__lookupSetter__" ]

/-- The JS property read `const downstream = TARGETS[target]`: an own entry
yields its URL string; otherwise the prototype chain is consulted, so a name
of an `Object.prototype` member yields that (truthy, non-URL) member; only
the remaining names evaluate to `undefined` (`none`). -/
def jsGetTarget (env : String → Option String) (target : String) : Option JsProp :=
  match lookupTarget env target with
  | some u => some (.url u)
  | none =>
    if objectPrototypeProps.contains target then some .protoMember else none

/-- An environment with no `MCP_*` overrides set (all defaults apply). -/
def emptyEnv : String → Option String := fun _ => none

end Registry

section Gateway

/-!
## Gateway — proxy server (`POST /mcp/:target`, `GET /mcp/get_methods`)

```ts
const JsonRpcSchema = z.object({
  jsonrpc: z.literal('2.0'),
  method: z.string(),
  params: z.any().optional(),
  id: z.union([z.string(), z.number()]).optional()
});

app.post('/mcp/:target', async (req, res) => {
  try {
    const { target } = req.params as { target: TargetKey };
    const downstream = TARGETS[target];
    if (!downstream) return res.status(404).json({ error: `Unknown target ${target}` });
    const payload = JsonRpcSchema.parse(req.body);
    const { data } = await axios.post(downstream, payload, { timeout: 15000 });
    return res.status(200).json(data);
  } catch (err: any) {
    const status = err?.response?.status ?? 500;
    return res.status(status).json({ error: err?.message ?? 'Proxy error', details: err?.response?.data });
  }
});
```
-/

/-- The output of `JsonRpcSchema.parse`: `zod`'s `z.object` *strips* keys not
declared in the schema, so a successful parse holds exactly the declared
fields (`jsonrpc` is forced to the literal `"2.0"` and carried implicitly).
`params` is `z.any().optional()`; `id` is `z.union([z.string(), z.number()]).optional()`. -/
structure JsonRpcPayload where
  method : String
  params : Option Json
  id : Option Json

/-- `JsonRpcSchema.parse(body)`: validates the request envelope shape.
Fails (throws `ZodError`, here `Except.error` with a message) when the body
is not an object, `jsonrpc` is missing or not the literal `"2.0"`, `method`
is missing or not a string, or `id` is present but neither string nor
number.  `params` accepts any present value and may be absent.  The error
messages stand in for `ZodError#message` (a serialised issue list); no
embedded claim depends on their exact text. -/
def parseJsonRpc : Json → Except String JsonRpcPayload
  | .obj fields =>
    match (Json.obj fields).get? "jsonrpc" with
    | some (.str "2.0") =>
      match (Json.obj fields).get? "method" with
      | some (.str m) =>
        let params := (Json.obj fields).get? "params"
        match (Json.obj fields).get? "id" with
        | none => .ok ⟨m, params, none⟩
        | some (.str s) => .ok ⟨m, params, some (.str s)⟩
        | some (.num n) => .ok ⟨m, params, some (.num n)⟩
        | some _ => .error "invalid id: expected string or number"
      | _ => .error "invalid method: expected string"
    | _ => .error "invalid jsonrpc: expected literal 2.0"
  | _ => .error "expected object"

/-- Re-serialisation of a parsed payload, as `axios` serialises the object
`JsonRpcSchema.parse` returned: exactly the schema's own keys, in schema
declaration order, with absent optionals omitted. -/
def payloadToJson (p : JsonRpcPayload) : Json :=
  .obj ([("jsonrpc", .str "2.0"), ("method", .str p.method)]
    ++ (match p.params with | some v => [("params", v)] | none => [])
    ++ (match p.id with | some v => [("id", v)] | none => []))

/-- The body actually forwarded to the backend for an inbound `body`, when
validation succeeds (`axios.post(downstream, payload, ...)` sends the
*parsed* payload, not `req.body`). -/
def forwardedPayload (body : Json) : Option Json :=
  match parseJsonRpc body with
  | .ok p => some (payloadToJson p)
  | .error _ => none

/-- An `axios` rejection: `message`, plus `response.status` / `response.data`
when the backend answered with a non-2xx status (`none`/`none` for transport
failures and timeouts, where `err.response` is `undefined`). -/
structure AxiosErr where
  message : String
  status : Option Nat
  data : Option Json

/-- The `POST /mcp/:target` handler.  Returns the HTTP status and JSON body
written to the response.  `downstream` is the property read `TARGETS[target]`
(`jsGetTarget`), and `if (!downstream)` tests truthiness, so only names that
are neither own keys nor `Object.prototype` members take the 404 branch; an
inherited member is truthy and the handler proceeds with it as the request
"URL".  `send url payload` is the outcome of
`axios.post(url, payload, { timeout: 15000 })` against a registered URL;
`sendProto payload` is the outcome of the same call when `downstream` is the
inherited non-URL value (in practice a rejection, left arbitrary here).
A thrown `ZodError` has no `response` property, so
`err?.response?.status ?? 500` yields `500` and `err?.response?.data` is
`undefined` (the `details` key is dropped by JSON serialisation). -/
def postMcp (env : String → Option String) (target : String) (body : Json)
    (send : String → Json → Except AxiosErr Json)
    (sendProto : Json → Except AxiosErr Json) : Nat × Json :=
  match jsGetTarget env target with
  | none => (404, .obj [("error", .str ("Unknown target " ++ target))])
  | some downstream =>
    match parseJsonRpc body with
    | .error m => (500, .obj [("error", .str m)])
    | .ok p =>
      match (match downstream with
             | .url u => send u (payloadToJson p)
             | .protoMember => sendProto (payloadToJson p)) with
      | .ok data => (200, data)
      | .error e =>
        (e.status.getD 500,
         .obj (("error", .str e.message) ::
           (match e.data with | some d => [("details", d)] | none => [])))

section Aggregation

/-!
```ts
app.get('/mcp/get_methods', async (_req, res) => {
  const entries = Object.entries(TARGETS) as [TargetKey, string][];
  const results = await Promise.allSettled(entries.map(async ([key, url]) => {
    const payload = { jsonrpc: '2.0', method: 'get_methods', id: `gm-${key}` };
    const { data } = await axios.post(url, payload, { timeout: 10000 });
    return [key, data] as const;
  }));
  const aggregated = results.map(r => r.status === 'fulfilled' ? r.value : r.reason?.message);
  res.json({ aggregated });
});
```
-/

/-- One element of the `aggregated` array: a fulfilled per-target promise
contributes the tuple `[key, data]`; a rejected one contributes
`r.reason?.message`, the rejection's bare message string. -/
inductive AggEntry where
  | pair : String → Json → AggEntry
  | errMsg : String → AggEntry

/-- Whether an aggregated entry is a two-element `[name, value]` tuple. -/
def AggEntry.isPair : AggEntry → Bool
  | .pair _ _ => true
  | .errMsg _ => false

/-- How one target's settled promise becomes its `aggregated` entry.
`call key url` is the outcome of
`axios.post(url, { jsonrpc: '2.0', method: 'get_methods', id: 'gm-' + key }, { timeout: 10000 })`
for that target. -/
def settle (call : String → String → Except String Json)
    (e : String × String) : AggEntry :=
  match call e.1 e.2 with
  | .ok data => .pair e.1 data
  | .error m => .errMsg m

/-- The `aggregated` array of `GET /mcp/get_methods`.  `Promise.allSettled`
never rejects and returns one outcome per input promise, positionally, so
the array is the registry-ordered map of the independent per-target
settled outcomes. -/
def aggregateMethods (env : String → Option String)
    (call : String → String → Except String Json) : List AggEntry :=
  (TARGETS env).map (settle call)

/-- The full `GET /mcp/get_methods` handler outcome: `res.json({ aggregated })`
writes status 200 (express default) with the aggregated array. -/
def getMethodsHandler (env : String → Option String)
    (call : String → String → Except String Json) : Nat × List AggEntry :=
  (200, aggregateMethods env call)

end Aggregation

end Gateway

section QueryParser

/-!
## Query parser and agent orchestrator — `src/agent/agent.ts`

```ts
export function parseQuery(query: string): { tool: ToolTarget; action: string; args: Record<string, string> } {
  const parts = query.trim().split(/\s+/);
  const tool = (['github', 'filesystem', 'atlassian', 'gdrive'].includes(parts[0]) ? parts[0] : 'filesystem') as ToolTarget;
  const action = parts[1] ?? 'get_methods';
  const argsParts = parts.slice(2);
  const args: Record<string, string> = {};
  for (const p of argsParts) {
    const [k, v] = p.split('=');
    if (k) args[k] = v ?? '';
  }
  return { tool, action, args };
}
```
-/

/-- Split a character list on runs of whitespace, dropping empty pieces
(the behaviour of JS `s.trim().split(/\s+/)` on inputs with at least one
non-whitespace character; `Char.isWhitespace` coincides with `\s` on the
ASCII whitespace the embedded programs encounter). -/
def wsSplitAux : List Char → List Char → List (List Char)
  | [], acc => if acc.isEmpty then [] else [acc.reverse]
  | c :: rest, acc =>
    if c.isWhitespace then
      if acc.isEmpty then wsSplitAux rest []
      else acc.reverse :: wsSplitAux rest []
    else wsSplitAux rest (c :: acc)

/-- `query.trim().split(/\s+/)` — on an empty or all-whitespace string JS
returns `[""]` (splitting the empty string yields one empty token). -/
def jsTokens (q : String) : List String :=
  match wsSplitAux q.data [] with
  | [] => [""]
  | parts => parts.map List.asString

/-- JS `p.split('=')`: split on *every* occurrence of `=`, keeping empty
segments (`"".split('=')` is `[""]`). -/
def splitEq : List Char → List (List Char)
  | [] => [[]]
  | c :: rest =>
    if c = '=' then [] :: splitEq rest
    else
      match splitEq rest with
      | [] => [[c]]
      | h :: t => (c :: h) :: t

/-- The loop body for one argument token: `const [k, v] = p.split('=')`
destructures the first two segments (`v` is `undefined` when there is only
one, and `?? ''` turns that into the empty string); the binding is kept only
when `k` is truthy, i.e. non-empty. -/
def argKV (p : String) : Option (String × String) :=
  let segs := splitEq p.data
  let k := (segs.headD []).asString
  let v := (segs.getD 1 []).asString
  if k = "" then none else some (k, v)

/-- JS object assignment `args[k] = v`: overwrite in place when the key
exists (keeping its original position), else append. -/
def insertArg (m : List (String × String)) (k v : String) : List (String × String) :=
  if m.any (fun e => e.1 = k) then
    m.map fun e => if e.1 = k then (k, v) else e
  else m ++ [(k, v)]

/-- The `for (const p of argsParts)` loop building the `args` record. -/
def buildArgs (tokens : List String) : List (String × String) :=
  tokens.foldl (fun m p =>
    match argKV p with
    | some (k, v) => insertArg m k v
    | none => m) []

/-- The result record of `parseQuery`; `args` is the JS object as an
insertion-ordered association list with unique keys. -/
structure ParsedQuery where
  tool : String
  action : String
  args : List (String × String)
deriving Repr, DecidableEq

/-- The known tool names tested by `['github','filesystem','atlassian','gdrive'].includes(parts[0])`. -/
def knownTools : List String := ["github", "filesystem", "atlassian", "gdrive"]

/-- `parseQuery` of `src/agent/agent.ts`.  `parts` is never empty (JS
`split` on a non-matching or empty string returns a one-element array), so
`parts[0]` is total; `parts[1] ?? 'get_methods'` defaults the action when
there is no second token. -/
def parseQuery (query : String) : ParsedQuery :=
  let parts := jsTokens query
  let tool := if knownTools.contains (parts.headD "") then parts.headD "" else "filesystem"
  let action := parts.getD 1 "get_methods"
  { tool := tool, action := action, args := buildArgs (parts.drop 2) }

end QueryParser

section Agent

/-!
```ts
export async function handleQuery(query: string, proxyBase = 'http://localhost:8002') {
  const { tool, action, args } = parseQuery(query);
  const mcpPayload = { jsonrpc: '2.0', method: 'invoke_method', params: { method: action, ...args }, id: 'demo' };
  const { data: mcpResult } = await axios.post(`${proxyBase}/mcp/${tool}`, mcpPayload);
  const retriever = await getRetriever();
  const ragDocs = await retriever.getRelevantDocuments(query);
  return {
    parsed: { tool, action, args },
    mcpSnippet: mcpResult?.result ?? mcpResult,
    ragContextPreview: ragDocs.slice(0, 2).map(d => ({ file: d.metadata?.file, text: d.pageContent.slice(0, 30000) }))
  };
}
```
-/

/-- A retrieved document: `metadata.file` and `pageContent`. -/
structure RagDoc where
  file : String
  text : String
deriving Repr, DecidableEq

/-- JS `s.slice(0, n)`. -/
def jsSlice (s : String) (n : Nat) : String :=
  (s.data.take n).asString

/-- The object `handleQuery` resolves with. -/
structure AgentResult where
  parsed : ParsedQuery
  mcpSnippet : Json
  ragContextPreview : List (String × String)

/-- `mcpResult?.result ?? mcpResult`: the `result` field of the gateway
response when it is present and not `null` (JS `??` also falls back on
`null`), else the whole response. -/
def mcpSnippetOf (mcpResult : Json) : Json :=
  match mcpResult.get? "result" with
  | some .null => mcpResult
  | some v => v
  | none => mcpResult

/-- `handleQuery` of `src/agent/agent.ts`.  The two awaited effects are
explicit inputs: `gw` is the settled outcome of the `axios.post` to the
gateway (`Except.error` when that promise rejects) and `rag` the documents
the retriever returns.  An `axios` rejection is unhandled — there is no
`try`/`catch` — so it propagates out of `handleQuery` before the retriever
is ever consulted; the embedding returns `Except.error` in that case. -/
def handleQuery (query : String) (gw : Except String Json) (rag : List RagDoc) :
    Except String AgentResult :=
  match gw with
  | .error m => .error m
  | .ok mcpResult =>
    .ok { parsed := parseQuery query
        , mcpSnippet := mcpSnippetOf mcpResult
        , ragContextPreview := (rag.take 2).map fun d => (d.file, jsSlice d.text 30000) }

end Agent

section Chunking

/-!
## Retrieval chunking — `src/rag/setup.ts`

```ts
const splitter = new RecursiveCharacterTextSplitter({ chunkSize: 1000, chunkOverlap: 200 });
...
const splits = await splitter.splitText(text);
```

The splitter itself is the third-party `langchain` library, whose
implementation is not part of this repository; the repository source fixes
only the constants `chunkSize: 1000` and `chunkOverlap: 200`.
-/

/-- Modelled from the spec: the chunking performed by
`RecursiveCharacterTextSplitter({ chunkSize: 1000, chunkOverlap: 200 })`,
whose implementation is missing from the repository, modelled as the spec
describes it — windows of at most `chunkSize` characters in which
consecutive windows overlap by `chunkOverlap` characters, i.e. each next
window starts `chunkSize - chunkOverlap = 800` characters after the
previous one, until the remaining text fits in one window.  The `fuel`
argument only bounds the recursion and is set generously by `specChunks`. -/
def chunkWindows : Nat → List Char → List (List Char)
  | 0, _ => []
  | fuel + 1, text =>
    if text.length ≤ 1000 then [text]
    else text.take 1000 :: chunkWindows fuel (text.drop 800)

/-- Modelled from the spec: `splitText` on a file's contents — the list of
chunk windows (1000-character windows at stride 800). -/
def specChunks (text : List Char) : List (List Char) :=
  chunkWindows (text.length + 1) text

end Chunking

/-!
## Concrete fixtures

Closed instances used by witnesses and counterexamples.
-/

/-- A backend that answers every forwarded request with `null`. -/
def sendOk : String → Json → Except AxiosErr Json := fun _ _ => .ok .null

/-- A backend whose every call rejects with a transport error
(no `response` attached). -/
def sendRefused : String → Json → Except AxiosErr Json :=
  fun _ _ => .error ⟨"connect ECONNREFUSED", none, none⟩

/-- A concrete outcome for the `axios.post` attempted with an inherited
non-URL `downstream` value: a rejection with no `response`. -/
def protoRefused : Json → Except AxiosErr Json :=
  fun _ => .error ⟨"connect ECONNREFUSED", none, none⟩

/-- Aggregation-call behaviour where exactly the `github` target fails. -/
def callGithubFails : String → String → Except String Json :=
  fun key _ => if key = "github" then .error "connect ECONNREFUSED" else .ok .null

/-- A request body that is an object but not a JSON-RPC request (both
`jsonrpc` and `method` missing). -/
def emptyBody : Json := .obj []

/-- A valid JSON-RPC request body carrying an extra field `extra` not in
the envelope schema. -/
def extraFieldBody : Json :=
  .obj [("jsonrpc", .str "2.0"), ("method", .str "ping"), ("extra", .bool true)]

/-- An 1800-character source text (long enough for two chunk windows). -/
def t1800 : List Char := List.replicate 1800 'a'

/-!
## Claims
-/

/-- **C4** (counterexample).  The claim quantifies over *every* target name
not present in the registry; but `const downstream = TARGETS[target]` is a
JS property read that consults the prototype chain.  For
`POST /mcp/constructor` — `constructor` is not a registered target — the
read yields `Object.prototype.constructor`, which is truthy, so the
`if (!downstream)` 404 branch is skipped: with an invalid body the handler
answers the validation 500, and with a valid body it attempts the backend
call with the inherited non-URL value (here rejecting, yielding that
rejection's 500), never the claimed 404 body. -/
theorem c4_counterexample :
    lookupTarget emptyEnv "constructor" = none ∧
      (postMcp emptyEnv "constructor" emptyBody sendOk protoRefused).1 = 500 ∧
      (postMcp emptyEnv "constructor" emptyBody sendOk protoRefused).1 ≠ 404 ∧
      postMcp emptyEnv "constructor"
          (Json.obj [("jsonrpc", Json.str "2.0"), ("method", Json.str "ping")])
          sendOk protoRefused
        = (500, Json.obj [("error", Json.str "connect ECONNREFUSED")]) :=
  ⟨rfl, rfl, by decide, rfl⟩

/-- **C4** (amended).  For every target name that is neither a registered
target nor a property inherited from `Object.prototype`, `POST /mcp/{target}`
responds with HTTP 404 and body `{ error: "Unknown target <name>" }`,
independently of the request body and of any backend behaviour (no backend
call is made: the response is the same for every `send`/`sendProto`).  A
name that hits the prototype chain (`constructor`, `toString`, ...) skips
the 404 branch instead: with a body failing envelope validation the handler
answers the validation 500. -/
theorem c4_unknown_target_404 :
    (∀ (env : String → Option String) (target : String) (body : Json)
        (send : String → Json → Except AxiosErr Json)
        (sendProto : Json → Except AxiosErr Json),
      jsGetTarget env target = none →
      postMcp env target body send sendProto
        = (404, .obj [("error", .str ("Unknown target " ++ target))])) ∧
      (∀ (env : String → Option String) (target : String) (body : Json)
          (m : String) (send : String → Json → Except AxiosErr Json)
          (sendProto : Json → Except AxiosErr Json),
        lookupTarget env target = none →
        objectPrototypeProps.contains target = true →
        parseJsonRpc body = .error m →
        postMcp env target body send sendProto = (500, .obj [("error", .str m)])) := by
  constructor
  · intro env target body send sendProto h
    unfold postMcp
    rw [h]
  · intro env target body m send sendProto h1 h2 hval
    unfold postMcp jsGetTarget
    rw [h1, if_pos h2, hval]

theorem c4_witness :
    postMcp emptyEnv "nope" emptyBody sendOk protoRefused
        = (404, Json.obj [("error", Json.str ("Unknown target " ++ "nope"))]) ∧
      postMcp emptyEnv "constructor" emptyBody sendOk protoRefused
        = (500, Json.obj [("error", Json.str "invalid jsonrpc: expected literal 2.0")]) :=
  ⟨c4_unknown_target_404.1 emptyEnv "nope" emptyBody sendOk protoRefused rfl,
   c4_unknown_target_404.2 emptyEnv "constructor" emptyBody
     "invalid jsonrpc: expected literal 2.0" sendOk protoRefused rfl rfl rfl⟩

/-- **C1** (counterexample).  The claim says a registered target with a body
failing JSON-RPC shape validation gets HTTP 400; on the code the thrown
`ZodError` reaches the route's generic `catch`, which answers with
`err?.response?.status ?? 500 = 500`, since a `ZodError` carries no
`response`.  Concretely: `filesystem` is registered, the empty object body
fails validation, and the response status is 500, not 400. -/
theorem c1_counterexample :
    (postMcp emptyEnv "filesystem" emptyBody sendOk protoRefused).1 = 500 ∧
      ¬ (postMcp emptyEnv "filesystem" emptyBody sendOk protoRefused).1 = 400 := by
  constructor
  · rfl
  · intro h
    simp [postMcp, jsGetTarget, lookupTarget, TARGETS, emptyEnv, parseJsonRpc,
      emptyBody, Json.get?] at h

/-- **C1** (amended).  For every request `POST /mcp/{target}` whose target is
registered but whose body fails JSON-RPC request-shape validation, the
gateway responds with HTTP status **500** and body
`{ error: <validation message> }` (the `ZodError` falls into the generic
catch, whose status is the backend's when available and 500 otherwise, and a
validation error carries no backend response), and the request is never
forwarded to the backend: the response is identical under every backend
behaviour `send`/`sendProto`. -/
theorem c1_invalid_envelope_500_no_forward (env : String → Option String)
    (target url : String) (body : Json) (m : String)
    (send send' : String → Json → Except AxiosErr Json)
    (sendProto sendProto' : Json → Except AxiosErr Json)
    (hreg : lookupTarget env target = some url)
    (hval : parseJsonRpc body = .error m) :
    postMcp env target body send sendProto = (500, .obj [("error", .str m)]) ∧
      postMcp env target body send sendProto
        = postMcp env target body send' sendProto' := by
  have hjs : jsGetTarget env target = some (.url url) := by
    unfold jsGetTarget
    rw [hreg]
  unfold postMcp
  rw [hjs, hval]
  exact ⟨rfl, rfl⟩

theorem c1_witness :
    postMcp emptyEnv "filesystem" emptyBody sendRefused protoRefused
        = (500, .obj [("error", .str "invalid jsonrpc: expected literal 2.0")]) ∧
      postMcp emptyEnv "filesystem" emptyBody sendRefused protoRefused
        = postMcp emptyEnv "filesystem" emptyBody sendOk protoRefused :=
  c1_invalid_envelope_500_no_forward emptyEnv "filesystem" "http://localhost:7001"
    emptyBody "invalid jsonrpc: expected literal 2.0" sendRefused sendOk
    protoRefused protoRefused rfl rfl

/-- **C10** (confirmed).  Whenever the inbound body passes envelope
validation, the payload forwarded to the backend is the parsed object, whose
keys all lie in `{jsonrpc, method, params, id}` — any extra inbound field is
stripped (`z.object` strips undeclared keys), so the backend never observes
extra envelope fields. -/
theorem c10_forwarded_keys_subset (body fwd : Json)
    (h : forwardedPayload body = some fwd) :
    fwd.keys.all (fun k => (["jsonrpc", "method", "params", "id"] : List String).contains k)
      = true := by
  unfold forwardedPayload at h
  cases hp : parseJsonRpc body with
  | error m => rw [hp] at h; cases h
  | ok p =>
    rw [hp] at h
    cases h
    obtain ⟨m, params, id⟩ := p
    cases params <;> cases id <;> simp [payloadToJson, Json.keys]

theorem c10_witness :
    (Json.obj [("jsonrpc", Json.str "2.0"), ("method", Json.str "ping")]).keys.all
      (fun k => (["jsonrpc", "method", "params", "id"] : List String).contains k) = true :=
  c10_forwarded_keys_subset extraFieldBody
    (Json.obj [("jsonrpc", Json.str "2.0"), ("method", Json.str "ping")]) rfl

/-- **C2** (counterexample).  The claim says *every* entry of `aggregated` is
a two-element pair `[targetName, resultOrErrorMessage]`; but a rejected
per-target promise contributes `r.reason?.message` — the bare message
string, not a pair.  Concretely, with only the `github` call failing, entry
1 (github's registry position) is not a pair, while the array still has one
entry per registered target. -/
theorem c2_counterexample :
    ((aggregateMethods emptyEnv callGithubFails).get? 1).map AggEntry.isPair
        = some false ∧
      (aggregateMethods emptyEnv callGithubFails).length = 5 := by
  exact ⟨rfl, rfl⟩

/-- **C2** (amended).  For every state of the target registry and every
backend behaviour, `GET /mcp/get_methods` returns `{ aggregated }` with
exactly one entry per registered target, in registry iteration order and
independent of backend response timing: entry `i` is the settled outcome of
target `i`'s call — the two-element pair `[targetName, result]` when that
call fulfills, and the failure's bare message string (not a pair) when it
rejects. -/
theorem c2_aggregate_positional (env : String → Option String)
    (call : String → String → Except String Json) :
    (aggregateMethods env call).length = (TARGETS env).length ∧
      ∀ i e, (TARGETS env).get? i = some e →
        (aggregateMethods env call).get? i = some (settle call e) := by
  constructor
  · exact List.length_map _ _
  · intro i e h
    unfold aggregateMethods
    rw [List.get?_map, h, Option.map_some']

theorem c2_witness :
    (aggregateMethods emptyEnv callGithubFails).length = (TARGETS emptyEnv).length ∧
      (aggregateMethods emptyEnv callGithubFails).get? 1
        = some (settle callGithubFails ("github", "http://localhost:7002")) :=
  ⟨(c2_aggregate_positional emptyEnv callGithubFails).1,
   (c2_aggregate_positional emptyEnv callGithubFails).2 1
     ("github", "http://localhost:7002") rfl⟩

/-- **C3** (confirmed).  During aggregation, each target's recorded outcome
is independent of every other target's behaviour: if two backend behaviours
agree on target `i`, entry `i` is the same (so any subset of other targets
failing alters nothing at position `i`); a fulfilled call at position `i`
records the pair `[name, response]`, a rejected call records its message
string at that position; and the HTTP status of the aggregate response is
200 in all cases. -/
theorem c3_aggregation_failure_isolation :
    (∀ (env : String → Option String) call call' i e,
        (TARGETS env).get? i = some e → call e.1 e.2 = call' e.1 e.2 →
        (aggregateMethods env call).get? i = (aggregateMethods env call').get? i) ∧
      (∀ (env : String → Option String) call i k url d,
        (TARGETS env).get? i = some (k, url) → call k url = .ok d →
        (aggregateMethods env call).get? i = some (.pair k d)) ∧
      (∀ (env : String → Option String) call i k url m,
        (TARGETS env).get? i = some (k, url) → call k url = .error m →
        (aggregateMethods env call).get? i = some (.errMsg m)) ∧
      (∀ (env : String → Option String) call,
        (getMethodsHandler env call).1 = 200) := by
  refine ⟨?_, ?_, ?_, fun _ _ => rfl⟩
  · intro env call call' i e h hagree
    unfold aggregateMethods
    rw [List.get?_map, List.get?_map, h, Option.map_some', Option.map_some']
    unfold settle
    rw [hagree]
  · intro env call i k url d h hok
    unfold aggregateMethods
    rw [List.get?_map, h, Option.map_some']
    unfold settle
    rw [hok]
  · intro env call i k url m h herr
    unfold aggregateMethods
    rw [List.get?_map, h, Option.map_some']
    unfold settle
    rw [herr]

theorem c3_witness :
    ((aggregateMethods emptyEnv callGithubFails).get? 0
        = some (AggEntry.pair "filesystem" Json.null)) ∧
      ((aggregateMethods emptyEnv callGithubFails).get? 1
        = some (AggEntry.errMsg "connect ECONNREFUSED")) ∧
      (getMethodsHandler emptyEnv callGithubFails).1 = 200 :=
  ⟨c3_aggregation_failure_isolation.2.1 emptyEnv callGithubFails 0
     "filesystem" "http://localhost:7001" Json.null rfl rfl,
   c3_aggregation_failure_isolation.2.2.1 emptyEnv callGithubFails 1
     "github" "http://localhost:7002" "connect ECONNREFUSED" rfl rfl,
   c3_aggregation_failure_isolation.2.2.2 emptyEnv callGithubFails⟩

/-- **C5** (counterexample).  The claim says `handleQuery` returns a merged
object even when the gateway call fails, with the failure captured inline
and the retrieval lookup still performed; but `handleQuery` has no
`try`/`catch` — the rejected `axios.post` promise propagates, so no object
is produced (the call rejects) and the retriever is never consulted. -/
theorem c5_counterexample :
    handleQuery "filesystem list_files"
        (.error "connect ECONNREFUSED") [⟨"a.txt", "hello world"⟩]
      = .error "connect ECONNREFUSED" := rfl

/-- **C5** (amended).  `handleQuery` merges gateway and retrieval outcomes
only when the gateway call succeeds; when the gateway call fails, the
failure propagates out of `handleQuery` (the returned promise rejects with
that failure), the returned outcome is independent of whatever the
retriever would have produced, and no merged result object is returned. -/
theorem c5_gateway_failure_propagates (q m : String) (rag rag' rag₂ : List RagDoc)
    (d : Json) :
    handleQuery q (.error m) rag = .error m ∧
      handleQuery q (.error m) rag = handleQuery q (.error m) rag' ∧
      handleQuery q (.ok d) rag₂
        = .ok ⟨parseQuery q, mcpSnippetOf d,
               (rag₂.take 2).map fun doc => (doc.file, jsSlice doc.text 30000)⟩ :=
  ⟨rfl, rfl, rfl⟩

/-- **C6** (confirmed).  The query parser is total by construction (its
embedding is a total Lean function of the input string: every JS operation
it performs — `trim`, `split`, indexing, `??` — is non-throwing), its tool
is always one of the four known names (unknown tools fall back to the
default), and `parseQuery ""` yields tool `"filesystem"`, action
`"get_methods"`, and an empty args record. -/
theorem c6_parser_total_default :
    parseQuery "" = ⟨"filesystem", "get_methods", []⟩ ∧
      ∀ q, (parseQuery q).tool ∈ knownTools := by
  refine ⟨rfl, fun q => ?_⟩
  have hx : ∀ x : String, (if knownTools.contains x then x else "filesystem") ∈ knownTools := by
    intro x
    by_cases h : knownTools.contains x
    · rw [if_pos h]
      exact List.mem_of_elem_eq_true h
    · rw [if_neg h]
      decide
  simpa [parseQuery] using hx ((jsTokens q).headD "")

/-- `splitEq` never returns an empty segment list. -/
theorem splitEq_ne_nil (l : List Char) : splitEq l ≠ [] := by
  cases l with
  | nil => simp [splitEq]
  | cons c rest =>
    simp only [splitEq]
    split
    · simp
    · split <;> simp

/-- Splitting at the first `=` of a token whose prefix `l` is `=`-free:
the prefix becomes the first segment. -/
theorem splitEq_append (l r : List Char) (h : '=' ∉ l) :
    splitEq (l ++ '=' :: r) = l :: splitEq r := by
  induction l with
  | nil => simp [splitEq]
  | cons c l ih =>
    have hc : ¬ c = '=' := fun e => h (e ▸ List.mem_cons_self c l)
    have hl : '=' ∉ l := fun hm => h (List.mem_cons_of_mem _ hm)
    rw [List.cons_append]
    simp only [splitEq, if_neg hc, ih hl]

/-- **C7** (counterexample).  The claim says a token `k=v1=v2` binds `k` to
`"v1=v2"` (split on the *first* `=`); but `p.split('=')` splits on *every*
`=` and the destructuring `const [k, v]` keeps only the first two segments,
so `k` is bound to `"v1"` and `"=v2"` is discarded. -/
theorem c7_counterexample :
    (parseQuery "filesystem act k=v1=v2").args = [("k", "v1")] ∧
      ("v1" : String) ≠ "v1=v2" := by
  exact ⟨rfl, by decide⟩

/-- **C7** (amended).  Each token after the first two is split on every `=`
and only the first two segments are kept: a token `k=v1=v2` (with `k`
non-empty and `k`, `v1` free of `=`) binds `k` to `"v1"`, the text after the
second `=` being discarded; a missing value defaults to the empty string; a
token without a usable key is silently dropped; and
`parse("filesystem list_files path=./src")` yields tool `"filesystem"`,
action `"list_files"`, and args `{ path: "./src" }`. -/
theorem c7_arg_token_split (a b c : String)
    (ha : '=' ∉ a.data) (hb : '=' ∉ b.data) (hne : a ≠ "") :
    argKV (a ++ "=" ++ b ++ "=" ++ c) = some (a, b) ∧
      parseQuery "filesystem list_files path=./src"
        = ⟨"filesystem", "list_files", [("path", "./src")]⟩ ∧
      (parseQuery "filesystem act k=").args = [("k", "")] ∧
      (parseQuery "filesystem act k").args = [("k", "")] ∧
      (parseQuery "filesystem act =v").args = [] := by
  refine ⟨?_, rfl, rfl, rfl, rfl⟩
  have hdata : (a ++ "=" ++ b ++ "=" ++ c).data
      = a.data ++ '=' :: (b.data ++ '=' :: c.data) := by
    simp [String.data_append]
  unfold argKV
  rw [hdata, splitEq_append _ _ ha, splitEq_append _ _ hb]
  show (if a = "" then none else some (a, b)) = some (a, b)
  rw [if_neg hne]

theorem c7_witness :
    argKV ("k" ++ "=" ++ "v1" ++ "=" ++ "v2") = some ("k", "v1") ∧
      parseQuery "filesystem list_files path=./src"
        = ⟨"filesystem", "list_files", [("path", "./src")]⟩ :=
  ⟨(c7_arg_token_split "k" "v1" "v2" (by decide) (by decide) (by decide)).1,
   (c7_arg_token_split "k" "v1" "v2" (by decide) (by decide) (by decide)).2.1⟩

/-- Every chunk window is at most 1000 characters (given enough fuel). -/
theorem chunkWindows_length_le (fuel : Nat) (t : List Char) (hf : t.length < fuel) :
    ∀ c ∈ chunkWindows fuel t, c.length ≤ 1000 := by
  induction fuel generalizing t with
  | zero => exact absurd hf (Nat.not_lt_zero _)
  | succ fuel ih =>
    intro c hc
    by_cases h : t.length ≤ 1000
    · simp only [chunkWindows, if_pos h, List.mem_singleton] at hc
      exact hc ▸ h
    · simp only [chunkWindows, if_neg h, List.mem_cons] at hc
      rcases hc with rfl | hc
      · simp
      · exact ih (t.drop 800) (by simp [List.length_drop]; omega) c hc

/-- Closed form of the chunk windows: the `i`-th window is the
1000-character slice starting at offset `800 * i` (given enough fuel). -/
theorem chunkWindows_get? (fuel : Nat) (t : List Char) (i : Nat)
    (hf : t.length < fuel) (hi : i < (chunkWindows fuel t).length) :
    (chunkWindows fuel t).get? i = some ((t.drop (800 * i)).take 1000) := by
  induction fuel generalizing t i with
  | zero => exact absurd hf (Nat.not_lt_zero _)
  | succ fuel ih =>
    by_cases h : t.length ≤ 1000
    · simp only [chunkWindows, if_pos h, List.length_singleton] at hi ⊢
      have : i = 0 := Nat.lt_one_iff.mp hi
      subst this
      simp [List.take_of_length_le h]
    · simp only [chunkWindows, if_neg h, List.length_cons] at hi ⊢
      cases i with
      | zero => simp
      | succ i =>
        rw [List.get?_cons_succ]
        have hlen : (t.drop 800).length < fuel := by
          simp only [List.length_drop]; omega
        have hi' : i < (chunkWindows fuel (t.drop 800)).length :=
          Nat.lt_of_succ_lt_succ hi
        rw [ih (t.drop 800) i hlen hi', List.drop_drop]
        congr 2
        ring

/-- **C8** (confirmed, spec-modelled: the splitter implementation is the
third-party `langchain` library, absent from the repository; `specChunks`
models it from the spec with the source's constants `chunkSize: 1000`,
`chunkOverlap: 200`).  Chunking produces windows of at most 1000
characters; window `i` is the 1000-character slice starting at offset
`800 * i`, so each next chunk starts exactly 800 characters after the
previous one and consecutive chunks share a 200-character overlap; and the
chunk boundaries are deterministic in the input text. -/
theorem c8_chunk_windows (t : List Char) :
    (∀ c ∈ specChunks t, c.length ≤ 1000) ∧
      (∀ i, i < (specChunks t).length →
        (specChunks t).get? i = some ((t.drop (800 * i)).take 1000)) ∧
      (∀ i, i + 1 < (specChunks t).length →
        ((t.drop (800 * i)).take 1000).drop 800 = (t.drop (800 * (i + 1))).take 200) ∧
      (∀ t', t = t' → specChunks t = specChunks t') := by
  refine ⟨chunkWindows_length_le _ _ (Nat.lt_succ_self _),
          fun i hi => chunkWindows_get? _ _ i (Nat.lt_succ_self _) hi,
          fun i _ => ?_, fun t' h => h ▸ rfl⟩
  have h1 : 800 * i + 800 = 800 * (i + 1) := by ring
  rw [List.drop_take, List.drop_drop, h1]

set_option maxRecDepth 40000 in
theorem c8_witness :
    ((specChunks t1800).get? 1 = some ((t1800.drop (800 * 1)).take 1000)) ∧
      (((t1800.drop (800 * 0)).take 1000).drop 800
        = (t1800.drop (800 * (0 + 1))).take 200) ∧
      (t1800.drop 800).length ≤ 1000 :=
  ⟨(c8_chunk_windows t1800).2.1 1 (by decide),
   (c8_chunk_windows t1800).2.2.1 0 (by decide),
   (c8_chunk_windows t1800).1 (t1800.drop 800) (by decide)⟩

/-- **C9** (counterexample).  The claim says the registry maps *exactly* the
four names `filesystem`, `github`, `atlassian`, `gdrive` and no other; but
the `TARGETS` literal has a fifth entry `playwright`
(`MCP_PLAYWRIGHT_URL`, default `http://localhost:7005`), so the key set is
not the claimed four names. -/
theorem c9_counterexample :
    "playwright" ∈ (TARGETS emptyEnv).map Prod.fst ∧
      (TARGETS emptyEnv).map Prod.fst ≠ ["filesystem", "github", "atlassian", "gdrive"] := by
  exact ⟨by decide, by decide⟩

/-- **C9** (amended).  For every environment, the target registry maps
exactly the **five** names `filesystem`, `github`, `atlassian`, `gdrive`
and `playwright` to base URLs — one entry per supported tool, names unique,
each URL taken from its environment variable with a hard-coded localhost
default — and no other name is registered. -/
theorem c9_registry_five_targets (env : String → Option String) :
    (TARGETS env).map Prod.fst
        = ["filesystem", "github", "atlassian", "gdrive", "playwright"] ∧
      ((TARGETS env).map Prod.fst).Nodup ∧
      lookupTarget env "filesystem" = some ((env "MCP_FILESYSTEM_URL").getD "http://localhost:7001") ∧
      lookupTarget env "github" = some ((env "MCP_GITHUB_URL").getD "http://localhost:7002") ∧
      lookupTarget env "atlassian" = some ((env "MCP_ATLASSIAN_URL").getD "http://localhost:7003") ∧
      lookupTarget env "gdrive" = some ((env "MCP_GDRIVE_URL").getD "http://localhost:7004") ∧
      lookupTarget env "playwright" = some ((env "MCP_PLAYWRIGHT_URL").getD "http://localhost:7005") ∧
      ∀ name, (TARGETS env).lookup name ≠ none →
        name ∈ ["filesystem", "github", "atlassian", "gdrive", "playwright"] := by
  refine ⟨rfl, ?_, rfl, rfl, rfl, rfl, rfl, ?_⟩
  · show (["filesystem", "github", "atlassian", "gdrive", "playwright"] : List String).Nodup
    decide
  · intro name h
    by_contra hmem
    simp only [List.mem_cons, List.not_mem_nil, or_false] at hmem
    push_neg at hmem
    obtain ⟨h1, h2, h3, h4, h5⟩ := hmem
    have b1 : (name == "filesystem") = false := beq_eq_false_iff_ne.mpr h1
    have b2 : (name == "github") = false := beq_eq_false_iff_ne.mpr h2
    have b3 : (name == "atlassian") = false := beq_eq_false_iff_ne.mpr h3
    have b4 : (name == "gdrive") = false := beq_eq_false_iff_ne.mpr h4
    have b5 : (name == "playwright") = false := beq_eq_false_iff_ne.mpr h5
    simp [TARGETS, List.lookup, b1, b2, b3, b4, b5] at h

theorem c9_witness :
    (TARGETS emptyEnv).map Prod.fst
        = ["filesystem", "github", "atlassian", "gdrive", "playwright"] ∧
      lookupTarget emptyEnv "playwright" = some "http://localhost:7005" ∧
      "playwright" ∈ ["filesystem", "github", "atlassian", "gdrive", "playwright"] :=
  ⟨(c9_registry_five_targets emptyEnv).1,
   (c9_registry_five_targets emptyEnv).2.2.2.2.2.2.1,
   (c9_registry_five_targets emptyEnv).2.2.2.2.2.2.2 "playwright" (by decide)⟩
